import Mathlib

/-!
Verification of the outreach batch tool (`reach_out.py`).

The script reads contact rows from a table, validates each row,
renders a per-(message type, language) template, sends over a channel
(email or the unsupported instagram/soundcloud stubs), and marks
successfully contacted rows.  The embedding below models:

* `Row` — one contact record (all fields strings, as in the source's
  string-indexed dataframe rows);
* `World` — the external world: a read-only file map (templates and
  the optional press-kit pdf) and an SMTP transport oracle;
* `Event` — the observable side effects of one run (sender calls,
  attachment, transport attempts, persistence writes);
* fuel-based scanning functions mirroring Python's `str.replace`,
  `str.split` and the two `re` uses (fuel is always instantiated with
  the input length, which is sufficient, so the wrappers compute).
-/

structure Row where
  Name : String
  Event_Name : String
  Channel : String
  Handle : String
  Language : String
  Message_Type : String
  Contacted : String
deriving DecidableEq, Repr

/-- Observable side effects of one iteration of the main loop. -/
inductive Event where
  | callEmail (handle message subject : String) : Event
  | callInstagram (handle message : String) : Event
  | attachPdf : Event
  | smtp (handle subject html : String) : Event
  | sheetUpdate (rowIndex : Nat) (column value : String) : Event
  | csvWrite (table : List Row) : Event
deriving DecidableEq, Repr

/-- External collaborators: the filesystem (path to content) and the
SMTP transport, an oracle deciding whether a given submission is
delivered (covers auth and connectivity). -/
structure World where
  files : String → Option String
  smtpOk : String → String → String → Bool

/-! ### Python string primitives, modelled over `List Char` -/

/-- One pass of Python `str.replace`: scan left to right, replacing
non-overlapping occurrences of `pat` (nonempty) by `rep`.  The fuel
argument only serves structural recursion; `replaceL` instantiates it
with the input length, which always suffices since a match consumes at
least one character. -/
def replaceFuel (pat rep : List Char) : Nat → List Char → List Char
  | 0, l => l
  | _ + 1, [] => []
  | n + 1, c :: rest =>
    if !pat.isEmpty && pat.isPrefixOf (c :: rest) then
      rep ++ replaceFuel pat rep n (List.drop pat.length (c :: rest))
    else
      c :: replaceFuel pat rep n rest

def replaceL (pat rep l : List Char) : List Char :=
  replaceFuel pat rep l.length l

def replaceS (s pat rep : String) : String :=
  String.mk (replaceL pat.toList rep.toList s.toList)

/-- Python `str.split(sep)` for a nonempty separator: split on every
non-overlapping occurrence, scanning left to right. -/
def splitFuel (sep : List Char) : Nat → List Char → List (List Char)
  | 0, l => [l]
  | _ + 1, [] => [[]]
  | n + 1, c :: rest =>
    if !sep.isEmpty && sep.isPrefixOf (c :: rest) then
      [] :: splitFuel sep n (List.drop sep.length (c :: rest))
    else
      match splitFuel sep n rest with
      | [] => [[c]]
      | p :: ps => (c :: p) :: ps

def splitOnL (sep l : List Char) : List (List Char) :=
  splitFuel sep l.length l

def splitOnS (s sep : String) : List String :=
  (splitOnL sep.toList s.toList).map String.mk

/-! ### The two `re.match` uses of the validator -/

/-- After the mandatory dot of the email pattern there must be one more
non-at character (the rest of the string is unconstrained because
`re.match` only anchors at the start). -/
def dotThenChar : List Char → Bool
  | '.' :: c :: _ => c ≠ '@'
  | _ => false

/-- Scans the part after the at sign of the loose email pattern: a
nonempty run of non-at characters, then a dot, then one more non-at
character. -/
def seekDot : List Char → Bool
  | [] => false
  | x :: rest => x ≠ '@' && (dotThenChar rest || seekDot rest)

/-- Looks for the first at sign (the local part `[^@]+` cannot cross
it) and hands the remainder to `seekDot`. -/
def looseEmailAux : List Char → Bool
  | [] => false
  | x :: rest => if x = '@' then seekDot rest else looseEmailAux rest

/-- Model of `re.match(r"[^@]+@[^@]+\.[^@]+", s)`: a nonempty run of
non-at characters, an at sign, a nonempty non-at run, a dot, and at
least one more non-at character all appearing as a prefix of `s`. -/
def looseEmail : List Char → Bool
  | [] => false
  | x :: rest => x ≠ '@' && looseEmailAux rest

/-- Character class `[a-zA-Z0-9_.]` of the instagram handle pattern. -/
def instaChar (c : Char) : Bool :=
  decide ('a' ≤ c ∧ c ≤ 'z') || decide ('A' ≤ c ∧ c ≤ 'Z') ||
  decide ('0' ≤ c ∧ c ≤ '9') || c == '_' || c == '.'

/-- Model of `re.match(r"^[a-zA-Z0-9_.]+$", s)` with Python semantics:
the dollar anchor also matches just before one trailing newline. -/
def instaMatch (l : List Char) : Bool :=
  (!l.isEmpty && l.all instaChar) ||
  (l.getLast? == some '\n' && !l.dropLast.isEmpty && l.dropLast.all instaChar)

/-! ### Row validator (`check_row`) -/

/-- Template file name `{Message_Type}_{Language}.txt` built from the
row, as in `check_row` and `generate_message`. -/
def template_name (row : Row) : String :=
  row.Message_Type ++ "_" ++ row.Language ++ ".txt"

/-- Model of `check_row`: the chain of guards of the source in source
order, each `return False` mapped to `false`, the final `return True`
to `true`.  File existence is `(files path).isSome`. -/
def check_row (files : String → Option String) (row : Row) : Bool :=
  if !(row.Channel == "email" || row.Channel == "instagram" || row.Channel == "soundcloud") then false
  else if row.Channel == "email" && !looseEmail row.Handle.toList then false
  else if row.Channel == "instagram" && !instaMatch row.Handle.toList then false
  else if row.Channel == "soundcloud" then false
  else if row.Name == "" then false
  else if row.Event_Name == "" then false
  else if !(row.Language == "EN" || row.Language == "FR") then false
  else if !(files (template_name row)).isSome then false
  else if !(row.Contacted == "Yes" || row.Contacted == "No") then false
  else if row.Contacted == "Yes" then false
  else true

/-- Instrumented `check_row`: which diagnostic (numbered 1 to 10 in
source order) the first failing guard would print, `none` when the row
passes.  Mirrors the `print` right before each `return False`. -/
def check_row_diag (files : String → Option String) (row : Row) : Option Nat :=
  if !(row.Channel == "email" || row.Channel == "instagram" || row.Channel == "soundcloud") then some 1
  else if row.Channel == "email" && !looseEmail row.Handle.toList then some 2
  else if row.Channel == "instagram" && !instaMatch row.Handle.toList then some 3
  else if row.Channel == "soundcloud" then some 4
  else if row.Name == "" then some 5
  else if row.Event_Name == "" then some 6
  else if !(row.Language == "EN" || row.Language == "FR") then some 7
  else if !(files (template_name row)).isSome then some 8
  else if !(row.Contacted == "Yes" || row.Contacted == "No") then some 9
  else if row.Contacted == "Yes" then some 10
  else none

/-- The ten validation rules exactly as the spec lists them, numbered
1 to 10; any other number is vacuously true. -/
def specRule (files : String → Option String) (row : Row) : Nat → Bool
  | 1 => row.Channel == "email" || row.Channel == "instagram" || row.Channel == "soundcloud"
  | 2 => !(row.Channel == "email") || looseEmail row.Handle.toList
  | 3 => !(row.Channel == "instagram") || instaMatch row.Handle.toList
  | 4 => !(row.Channel == "soundcloud")
  | 5 => !(row.Name == "")
  | 6 => !(row.Event_Name == "")
  | 7 => row.Language == "EN" || row.Language == "FR"
  | 8 => (files (template_name row)).isSome
  | 9 => row.Contacted == "Yes" || row.Contacted == "No"
  | 10 => !(row.Contacted == "Yes")
  | _ => true

/-- Spec reading of the validator: all ten rules hold. -/
def validate_spec (files : String → Option String) (row : Row) : Bool :=
  [1, 2, 3, 4, 5, 6, 7, 8, 9, 10].all (specRule files row)

/-- Spec reading of the emitted diagnostic: the first rule, in the
listed order, that fails. -/
def firstFail (files : String → Option String) (row : Row) : Option Nat :=
  [1, 2, 3, 4, 5, 6, 7, 8, 9, 10].find? (fun n => !(specRule files row n))

/-! ### Template renderer (`generate_message`) -/

/-- Model of `generate_message`.  Opening a missing file raises, and
the tuple unpacking of `split` raises unless there are exactly two
parts; both unhandled failures are `none`.  On success the source
strips the literal subject wrapper prefix from the first part and
substitutes both placeholders in both parts, returning
`(message, subject)` in that order. -/
def generate_message (files : String → Option String) (row : Row) : Option (String × String) :=
  match files (template_name row) with
  | none => none
  | some all_text =>
    match splitOnS all_text "\x7d\n\n" with
    | [subj0, msg0] =>
      let subject :=
        replaceS (replaceS (replaceS subj0 "\x7bSubject: " "") "[Name]" row.Name)
          "[Event Name]" row.Event_Name
      let message := replaceS (replaceS msg0 "[Name]" row.Name) "[Event Name]" row.Event_Name
      some (message, subject)
    | _ => none

/-- Renderer exactly as claim C7 words it: on success the two split
segments are returned (as the source, message first) with only the two
placeholder substitutions applied to each — no other transformation. -/
def render_claim (files : String → Option String) (row : Row) : Option (String × String) :=
  match files (template_name row) with
  | none => none
  | some all_text =>
    match splitOnS all_text "\x7d\n\n" with
    | [seg1, seg2] =>
      some (replaceS (replaceS seg2 "[Name]" row.Name) "[Event Name]" row.Event_Name,
            replaceS (replaceS seg1 "[Name]" row.Name) "[Event Name]" row.Event_Name)
    | _ => none

/-- Renderer as the amended claim words it: like `render_claim` but
every occurrence of the literal subject wrapper prefix is removed from
the first segment before the placeholder substitutions. -/
def render_amended (files : String → Option String) (row : Row) : Option (String × String) :=
  match files (template_name row) with
  | none => none
  | some all_text =>
    match splitOnS all_text "\x7d\n\n" with
    | [seg1, seg2] =>
      some (replaceS (replaceS seg2 "[Name]" row.Name) "[Event Name]" row.Event_Name,
            replaceS (replaceS (replaceS seg1 "\x7bSubject: " "") "[Name]" row.Name)
              "[Event Name]" row.Event_Name)
    | _ => none

/-! ### Text-to-HTML conversion (`convert_text_to_html`) -/

/-- Attempts to match the link pattern `\[([^\]]+)\]\(([^\)]+)\)` at
the current position, `l` being the input just after the opening
square bracket.  Both character classes are greedy and exclude their
closing delimiter, so the longest run is the only candidate; returns
the link text, the url, and the remaining input. -/
def tryLink (l : List Char) : Option (List Char × List Char × List Char) :=
  match l.dropWhile (fun c => c != ']') with
  | ']' :: '(' :: r2 =>
    if (l.takeWhile (fun c => c != ']')).isEmpty then none
    else
      match r2.dropWhile (fun c => c != ')') with
      | ')' :: r3 =>
        if (r2.takeWhile (fun c => c != ')')).isEmpty then none
        else some (l.takeWhile (fun c => c != ']'), r2.takeWhile (fun c => c != ')'), r3)
      | _ => none
  | _ => none

/-- The replacement template `<a href="\2">\1</a>` of the `re.sub`. -/
def linkAnchor (t u : List Char) : List Char :=
  "<a href=\"".toList ++ u ++ "\">".toList ++ t ++ "</a>".toList

/-- One scan of `re.sub(link_pattern, anchor, text)`: at every opening
square bracket try the pattern, emit the anchor on a match and resume
after it, otherwise advance one character.  Fuel-based for the same
reason as `replaceFuel`. -/
def linkFuel : Nat → List Char → List Char
  | 0, l => l
  | _ + 1, [] => []
  | n + 1, c :: rest =>
    if c = '[' then
      match tryLink rest with
      | some (t, u, r) => linkAnchor t u ++ linkFuel n r
      | none => c :: linkFuel n rest
    else c :: linkFuel n rest

def linkSub (l : List Char) : List Char :=
  linkFuel l.length l

/-- Model of `html.replace('\n', '<br>\n')`. -/
def brify : List Char → List Char
  | [] => []
  | c :: rest =>
    if c = '\n' then '<' :: 'b' :: 'r' :: '>' :: '\n' :: brify rest
    else c :: brify rest

/-- Model of `convert_text_to_html`: substitute links, then line
breaks, then wrap in the fixed styled container. -/
def convert_text_to_html (text : String) : String :=
  let html := String.mk (brify (linkSub text.toList))
  "<html><body style=\"font-family: Arial, sans-serif; line-height: 1.6; color: #333;\">"
    ++ html ++ "</body></html>"

/-! ### Channel senders -/

/-- Model of `send_email`: empty message or subject bail out before
any other work; otherwise the body is converted to HTML, the press-kit
is attached when the fixed path exists, and the submission outcome is
the transport oracle's verdict (an exception in the `try` block is a
`false` return).  The event list records what was done. -/
def send_email (w : World) (handle message subject : String) : Bool × List Event :=
  if message == "" || subject == "" then (false, [])
  else
    (w.smtpOk handle subject (convert_text_to_html message),
     (if (w.files "SAUMAC_PRESSKIT.pdf").isSome then [Event.attachPdf] else []) ++
       [Event.smtp handle subject (convert_text_to_html message)])

/-- Model of `send_instagram`: prints a diagnostic and returns `False`
unconditionally; the code below its first `return` is unreachable. -/
def send_instagram (_handle _message : String) : Bool × List Event :=
  (false, [])

/-! ### Spreadsheet update (`update_google_sheets_row`) -/

/-- Model of the body of `update_google_sheets_row` once a worksheet
is available, `headers` being its first row.  Returns the success flag
and the list of cell writes `(sheet row, sheet column, value)` issued
(`update_cell` is called exactly once on success). -/
def update_google_sheets_row (headers : List String) (row_index : Nat)
    (column_name value : String) : Bool × List (Nat × Nat × String) :=
  if column_name ∉ headers then (false, [])
  else
    let col_index := headers.indexOf column_name + 1
    let row_num := row_index + 2
    (true, [(row_num, col_index, value)])

/-! ### Orchestrator (the main loop) -/

/-- Channel dispatch of the loop body: `sent` starts `False` and is
set by the matching sender; the marker event records that the sender
function itself was invoked. -/
def dispatch (w : World) (row : Row) (message subject : String) : Bool × List Event :=
  if row.Channel == "email" then
    ((send_email w row.Handle message subject).1,
     Event.callEmail row.Handle message subject :: (send_email w row.Handle message subject).2)
  else if row.Channel == "instagram" then
    ((send_instagram row.Handle message).1,
     Event.callInstagram row.Handle message :: (send_instagram row.Handle message).2)
  else (false, [])

/-- One iteration of the main loop at index `i`: validate, render,
dispatch, and on a confirmed send mark `Contacted` and persist (sheet
cell update or full csv rewrite, by backend).  `none` models the
unhandled exception of a malformed or vanished template, which aborts
the run. -/
def process_row (w : World) (usingGS : Bool) (table : List Row) (i : Nat) :
    Option (List Row × List Event) :=
  match table.get? i with
  | none => some (table, [])
  | some row =>
    if check_row w.files row then
      match generate_message w.files row with
      | none => none
      | some (message, subject) =>
        if (dispatch w row message subject).1 then
          some (table.set i { row with Contacted := "Yes" },
            (dispatch w row message subject).2 ++
              (if usingGS then [Event.sheetUpdate i "Contacted" "Yes"]
               else [Event.csvWrite (table.set i { row with Contacted := "Yes" })]))
        else some (table, (dispatch w row message subject).2)
    else some (table, [])

/-- Runs the loop over the given index list, accumulating events; the
final flag is `false` when a render exception aborted the run. -/
def run_from (w : World) (usingGS : Bool) : List Row → List Nat → List Row × List Event × Bool
  | table, [] => (table, [], true)
  | table, i :: rest =>
    match process_row w usingGS table i with
    | none => (table, [], false)
    | some (t2, evs) =>
      match run_from w usingGS t2 rest with
      | (t3, evs2, ok) => (t3, evs ++ evs2, ok)

/-- The whole run: `for i in range(len(df))`. -/
def run (w : World) (usingGS : Bool) (table : List Row) : List Row × List Event × Bool :=
  run_from w usingGS table (List.range table.length)

/-- Persistence events are the only writes to the backing store. -/
def persistEvent : Event → Bool
  | Event.sheetUpdate _ _ _ => true
  | Event.csvWrite _ => true
  | _ => false

/-! ### Concrete fixtures used by witnesses and scenarios -/

/-- The scenario row of the spec (section 8). -/
def row_jo : Row :=
  { Name := "Jo", Event_Name := "Gala", Channel := "email", Handle := "a@b.com",
    Language := "EN", Message_Type := "invite", Contacted := "No" }

/-- A filesystem holding only the scenario template `invite_EN.txt`. -/
def filesInvite : String → Option String := fun name =>
  if name = "invite_EN.txt" then some "\x7bSubject: Hi [Name]\x7d\n\nCome to [Event Name]!"
  else none

/-- World whose transport always confirms delivery. -/
def worldOk : World := { files := filesInvite, smtpOk := fun _ _ _ => true }

/-- World whose transport always fails. -/
def worldDown : World := { files := filesInvite, smtpOk := fun _ _ _ => false }

/-- An already-contacted row. -/
def rowYes : Row :=
  { Name := "Ann", Event_Name := "Fest", Channel := "email", Handle := "a@b.com",
    Language := "EN", Message_Type := "invite", Contacted := "Yes" }

/-- A valid instagram row. -/
def rowInsta : Row :=
  { Name := "In", Event_Name := "Fest", Channel := "instagram", Handle := "user_1",
    Language := "EN", Message_Type := "invite", Contacted := "No" }

/-- A template whose body is empty after the separator. -/
def filesEmptyBody : String → Option String := fun name =>
  if name = "invite_EN.txt" then some "\x7bSubject: Hi\x7d\n\n" else none

def worldEmptyBody : World := { files := filesEmptyBody, smtpOk := fun _ _ _ => true }

/-- A template exercising the subject-wrapper strip. -/
def filesStrip : String → Option String := fun name =>
  if name = "invite_EN.txt" then some "\x7bSubject: Hello\x7d\n\nBody" else none

/-- A template with no separator at all (malformed). -/
def filesBad : String → Option String := fun name =>
  if name = "invite_EN.txt" then some "no separator" else none

/-! ### Helper lemmas about the validator and the loop step -/

/-- Spot checks of the two regex models against the Python engine's
behavior on representative inputs. -/
theorem regex_model_spotchecks :
    looseEmail "a@b.com".toList = true ∧ looseEmail "a@.com".toList = false ∧
    looseEmail "@b.com".toList = false ∧ looseEmail "ab@cd".toList = false ∧
    instaMatch "user_1.x".toList = true ∧ instaMatch "".toList = false ∧
    instaMatch "bad handle".toList = false := by
  decide


theorem check_row_contacted_no (files : String → Option String) (row : Row)
    (h : check_row files row = true) : row.Contacted = "No" := by
  by_cases hno : row.Contacted = "No"
  · exact hno
  · exfalso
    by_cases hy : row.Contacted = "Yes" <;>
      · unfold check_row at h
        simp [hy, hno] at h

theorem send_email_no_persist (w : World) (h m s : String) :
    ((send_email w h m s).2).all (fun e => !persistEvent e) = true := by
  unfold send_email
  split
  · rfl
  · cases hpdf : (w.files "SAUMAC_PRESSKIT.pdf").isSome <;> simp [hpdf, persistEvent]

theorem dispatch_no_persist (w : World) (row : Row) (m s : String) :
    ((dispatch w row m s).2).all (fun e => !persistEvent e) = true := by
  unfold dispatch
  split
  · simpa [persistEvent] using send_email_no_persist w row.Handle m s
  · split
    · simp [send_instagram, persistEvent]
    · rfl

theorem process_row_valid (w : World) (gs : Bool) (table : List Row) (i : Nat) (row : Row)
    (m s : String) (hget : table.get? i = some row)
    (hchk : check_row w.files row = true)
    (hgen : generate_message w.files row = some (m, s)) :
    process_row w gs table i =
      if (dispatch w row m s).1 then
        some (table.set i { row with Contacted := "Yes" },
          (dispatch w row m s).2 ++
            (if gs then [Event.sheetUpdate i "Contacted" "Yes"]
             else [Event.csvWrite (table.set i { row with Contacted := "Yes" })]))
      else some (table, (dispatch w row m s).2) := by
  unfold process_row
  rw [hget]
  simp [hchk, hgen]

theorem process_row_shape (w : World) (gs : Bool) (t : List Row) (i : Nat)
    (t2 : List Row) (evs : List Event)
    (h : process_row w gs t i = some (t2, evs)) :
    t2 = t ∨ ∃ row m s, t.get? i = some row ∧ check_row w.files row = true ∧
      generate_message w.files row = some (m, s) ∧ (dispatch w row m s).1 = true ∧
      row.Contacted = "No" ∧ t2 = t.set i { row with Contacted := "Yes" } := by
  unfold process_row at h
  split at h
  · simp at h
    exact Or.inl h.1.symm
  next row hget =>
    split at h
    next hchk =>
      split at h
      next hgen => exact absurd h (by simp)
      next m s hgen =>
        split at h
        next hd =>
          simp at h
          exact Or.inr ⟨row, m, s, hget, hchk, hgen, hd,
            check_row_contacted_no _ _ hchk, h.1.symm⟩
        next hd =>
          simp at h
          exact Or.inl h.1.symm
    next hchk =>
      simp at h
      exact Or.inl h.1.symm

/-! ### Claim theorems -/

/-- C2: `check_row` returns true exactly when the ten spec rules all
hold, and its first-failure diagnostic is the first failing rule in
the listed order (short-circuit). -/
theorem validator_ten_rules_in_order (files : String → Option String) (row : Row) :
    check_row files row = validate_spec files row ∧
    check_row_diag files row = firstFail files row := by
  unfold check_row check_row_diag validate_spec firstFail
  simp only [List.all_cons, List.all_nil, List.find?_cons, List.find?_nil, specRule]
  generalize (row.Channel == "email") = b1
  generalize (row.Channel == "instagram") = b2
  generalize (row.Channel == "soundcloud") = b3
  generalize (looseEmail row.Handle.toList) = b4
  generalize (instaMatch row.Handle.toList) = b5
  generalize (row.Name == "") = b6
  generalize (row.Event_Name == "") = b7
  generalize (row.Language == "EN") = b8
  generalize (row.Language == "FR") = b9
  generalize ((files (template_name row)).isSome) = b10
  generalize (row.Contacted == "Yes") = b11
  generalize (row.Contacted == "No") = b12
  revert b1 b2 b3 b4 b5 b6 b7 b8 b9 b10 b11 b12
  decide

/-- C1: a row already marked Contacted is rejected by the validator and
its loop iteration invokes no sender and leaves the table unchanged. -/
theorem contacted_yes_row_skipped (w : World) (gs : Bool) (table : List Row) (i : Nat) (row : Row)
    (hget : table.get? i = some row) (hy : row.Contacted = "Yes") :
    check_row w.files row = false ∧ process_row w gs table i = some (table, []) := by
  have hfalse : check_row w.files row = false := by
    unfold check_row
    simp [hy]
  refine ⟨hfalse, ?_⟩
  unfold process_row
  rw [hget]
  simp [hfalse]

theorem contacted_yes_row_skipped_witness :
    check_row worldOk.files rowYes = false ∧
    process_row worldOk false [rowYes] 0 = some ([rowYes], []) :=
  contacted_yes_row_skipped worldOk false [rowYes] 0 rowYes (by decide) (by decide)

/-- C3: when the dispatched send reports failure, the iteration returns
the table unchanged (the row keeps Contacted = No) and emits no
persistence event, and the run continues (no abort). -/
theorem send_failure_leaves_row_unmarked (w : World) (gs : Bool) (table : List Row) (i : Nat)
    (row : Row) (m s : String) (hget : table.get? i = some row)
    (hchk : check_row w.files row = true)
    (hgen : generate_message w.files row = some (m, s))
    (hfail : (dispatch w row m s).1 = false) :
    process_row w gs table i = some (table, (dispatch w row m s).2) ∧
    row.Contacted = "No" ∧
    ((dispatch w row m s).2).all (fun e => !persistEvent e) = true := by
  refine ⟨?_, check_row_contacted_no _ _ hchk, dispatch_no_persist w row m s⟩
  rw [process_row_valid w gs table i row m s hget hchk hgen, if_neg (by simp [hfail])]

theorem send_failure_leaves_row_unmarked_witness :
    process_row worldDown false [row_jo] 0 =
      some ([row_jo], (dispatch worldDown row_jo "Come to Gala!" "Hi Jo").2) ∧
    row_jo.Contacted = "No" ∧
    ((dispatch worldDown row_jo "Come to Gala!" "Hi Jo").2).all (fun e => !persistEvent e) = true :=
  send_failure_leaves_row_unmarked worldDown false [row_jo] 0 row_jo "Come to Gala!" "Hi Jo"
    (by decide) (by decide) (by decide) (by decide)

/-- C4: the spec scenario: the row renders to subject Hi Jo and body
Come to Gala exclamation, and a confirmed send marks Contacted = Yes
(with the single sheet-cell persistence write). -/
theorem email_scenario_renders_and_marks :
    generate_message worldOk.files row_jo = some ("Come to Gala!", "Hi Jo") ∧
    process_row worldOk true [row_jo] 0 =
      some ([{ row_jo with Contacted := "Yes" }],
        [Event.callEmail "a@b.com" "Come to Gala!" "Hi Jo",
         Event.smtp "a@b.com" "Hi Jo"
           "<html><body style=\"font-family: Arial, sans-serif; line-height: 1.6; color: #333;\">Come to Gala!</body></html>",
         Event.sheetUpdate 0 "Contacted" "Yes"]) := by
  decide

/-- C5: the sheet update targets the cell at the header-matched column
(1-based) and the offset row (data row i lands on sheet row i+2), one
single write; a missing column yields false and no write. -/
theorem update_locates_header_and_offset_row (headers : List String) (row_index : Nat)
    (column_name value : String) :
    update_google_sheets_row headers row_index column_name value =
      if column_name ∈ headers then
        (true, [(row_index + 2, headers.indexOf column_name + 1, value)])
      else (false, []) := by
  unfold update_google_sheets_row
  by_cases h : column_name ∈ headers <;> simp [h]

/-- C6: the instagram sender returns false with no effects for every
input, so a validated instagram row never gets marked: its iteration
returns the table unchanged. -/
theorem instagram_sender_always_false (w : World) (gs : Bool) (table : List Row) (i : Nat)
    (row : Row) (t2 : List Row) (evs : List Event) (hget : table.get? i = some row)
    (hch : row.Channel = "instagram") (hchk : check_row w.files row = true)
    (hstep : process_row w gs table i = some (t2, evs)) :
    (∀ h m, send_instagram h m = (false, [])) ∧ row.Contacted = "No" ∧ t2 = table := by
  refine ⟨fun _ _ => rfl, check_row_contacted_no _ _ hchk, ?_⟩
  rcases process_row_shape w gs table i t2 evs hstep with h | ⟨row2, m, s, hget2, _, _, hd, _, _⟩
  · exact h
  · rw [hget] at hget2
    injection hget2 with hrr
    subst hrr
    exfalso
    unfold dispatch at hd
    rw [if_neg (by simp [hch]), if_pos (by simp [hch])] at hd
    simp [send_instagram] at hd

theorem instagram_sender_always_false_witness :
    (∀ h m, send_instagram h m = (false, [])) ∧ rowInsta.Contacted = "No" ∧
    [rowInsta] = [rowInsta] :=
  instagram_sender_always_false worldOk false [rowInsta] 0 rowInsta [rowInsta]
    [Event.callInstagram "user_1" "Come to Fest!"] (by decide) (by decide) (by decide) (by decide)

/-- C10: an empty rendered message or subject makes the email sender
return false with no attachment and no transport attempt, and the row
stays unmarked. -/
theorem empty_render_never_sends (w : World) (gs : Bool) (table : List Row) (i : Nat)
    (row : Row) (m s : String) (hget : table.get? i = some row)
    (hch : row.Channel = "email") (hchk : check_row w.files row = true)
    (hgen : generate_message w.files row = some (m, s)) (hemp : m = "" ∨ s = "") :
    send_email w row.Handle m s = (false, []) ∧
    process_row w gs table i = some (table, [Event.callEmail row.Handle m s]) ∧
    row.Contacted = "No" := by
  have hse : send_email w row.Handle m s = (false, []) := by
    unfold send_email
    rcases hemp with h | h <;> simp [h]
  have hd : dispatch w row m s = (false, [Event.callEmail row.Handle m s]) := by
    unfold dispatch
    rw [if_pos (by simp [hch]), hse]
  refine ⟨hse, ?_, check_row_contacted_no _ _ hchk⟩
  rw [process_row_valid w gs table i row m s hget hchk hgen, hd]
  simp

theorem empty_render_never_sends_witness :
    send_email worldEmptyBody row_jo.Handle "" "Hi" = (false, []) ∧
    process_row worldEmptyBody false [row_jo] 0 =
      some ([row_jo], [Event.callEmail row_jo.Handle "" "Hi"]) ∧
    row_jo.Contacted = "No" :=
  empty_render_never_sends worldEmptyBody false [row_jo] 0 row_jo "" "Hi"
    (by decide) (by decide) (by decide) (by decide) (Or.inl rfl)

/-- C7 counterexample: on a well-formed template the source also strips
the literal subject wrapper prefix, so the returned subject is not the
raw first segment with placeholder substitutions. -/
theorem render_claim_counterexample :
    generate_message filesStrip row_jo = some ("Body", "Hello") ∧
    render_claim filesStrip row_jo = some ("Body", "\x7bSubject: Hello") ∧
    generate_message filesStrip row_jo ≠ render_claim filesStrip row_jo := by
  refine ⟨by decide, by decide, by decide⟩

/-- C7 amended: the renderer equals the amended spec-worded renderer
(wrapper strip included), it propagates an error when the resource is
missing, and for a present resource it errors exactly when the content
does not split into exactly two segments. -/
theorem render_amended_characterization (files : String → Option String) (row : Row) :
    generate_message files row = render_amended files row ∧
    (files (template_name row) = none → generate_message files row = none) ∧
    (∀ text, files (template_name row) = some text →
      (generate_message files row = none ↔ (splitOnS text "\x7d\n\n").length ≠ 2)) := by
  refine ⟨rfl, ?_, ?_⟩
  · intro h
    unfold generate_message
    rw [h]
  · intro text h
    unfold generate_message
    rw [h]
    rcases hsp : splitOnS text "\x7d\n\n" with _ | ⟨a, _ | ⟨b, _ | ⟨c, rest⟩⟩⟩ <;> simp [hsp]

theorem render_amended_characterization_witness :
    generate_message filesBad row_jo = render_amended filesBad row_jo ∧
    (generate_message filesBad row_jo = none ↔ (splitOnS "no separator" "\x7d\n\n").length ≠ 2) :=
  ⟨(render_amended_characterization filesBad row_jo).1,
   (render_amended_characterization filesBad row_jo).2.2 "no separator" (by decide)⟩

/-! ### HTML conversion lemmas (C9) -/

theorem tryLink_correct (t u suf : List Char) (ht : t ≠ []) (ht2 : ']' ∉ t)
    (hu : u ≠ []) (hu2 : ')' ∉ u) :
    tryLink (t ++ ']' :: '(' :: (u ++ ')' :: suf)) = some (t, u, suf) := by
  have hpt : ∀ a ∈ t, (a != ']') = true := fun a ha => bne_iff_ne.mpr (fun h => ht2 (h ▸ ha))
  have hpu : ∀ a ∈ u, (a != ')') = true := fun a ha => bne_iff_ne.mpr (fun h => hu2 (h ▸ ha))
  unfold tryLink
  rw [List.takeWhile_append_of_pos hpt, List.dropWhile_append_of_pos hpt,
    List.takeWhile_cons_of_neg (by simp), List.dropWhile_cons_of_neg (by simp)]
  simp only [List.append_nil]
  rw [List.takeWhile_append_of_pos hpu, List.dropWhile_append_of_pos hpu,
    List.takeWhile_cons_of_neg (by simp), List.dropWhile_cons_of_neg (by simp)]
  simp [ht, hu]

theorem tryLink_length (l t u r : List Char) (h : tryLink l = some (t, u, r)) :
    r.length < l.length := by
  unfold tryLink at h
  split at h
  next r2 hdrop =>
    split at h
    · exact absurd h (by simp)
    · split at h
      next r3 hdrop2 =>
        split at h
        · exact absurd h (by simp)
        · have h2 : r2.length + 2 ≤ l.length := by
            have := (List.dropWhile_sublist (l := l) (fun c => c != ']')).length_le
            rw [hdrop] at this
            simpa using this
          have h3 : r3.length + 1 ≤ r2.length := by
            have := (List.dropWhile_sublist (l := r2) (fun c => c != ')')).length_le
            rw [hdrop2] at this
            simpa using this
          have hr : r = r3 := by
            injection h with h'
            injection h' with h1 h2'
            injection h2' with h3' h4'
            exact h4'.symm
          subst hr
          omega
      next => exact absurd h (by simp)
  next => exact absurd h (by simp)

theorem linkFuel_cons_match (n : Nat) (rest t u r : List Char)
    (h : tryLink rest = some (t, u, r)) :
    linkFuel (n + 1) ('[' :: rest) = linkAnchor t u ++ linkFuel n r := by
  simp only [linkFuel, h, eq_self_iff_true, if_true]

theorem linkFuel_cons_nomatch (n : Nat) (rest : List Char) (h : tryLink rest = none) :
    linkFuel (n + 1) ('[' :: rest) = '[' :: linkFuel n rest := by
  simp only [linkFuel, h, eq_self_iff_true, if_true]

theorem linkFuel_cons_other (n : Nat) (c : Char) (rest : List Char) (hc : c ≠ '[') :
    linkFuel (n + 1) (c :: rest) = c :: linkFuel n rest := by
  simp only [linkFuel, if_neg hc]

theorem linkFuel_ext : ∀ n m (l : List Char), l.length ≤ n → l.length ≤ m →
    linkFuel n l = linkFuel m l := by
  intro n
  induction n with
  | zero =>
    intro m l hn hm
    have : l = [] := List.length_eq_zero.mp (Nat.le_zero.mp hn)
    subst this
    cases m <;> rfl
  | succ n ih =>
    intro m l hn hm
    cases l with
    | nil => cases m <;> rfl
    | cons c rest =>
      cases m with
      | zero => exact absurd hm (by simp)
      | succ m =>
        simp only [List.length_cons] at hn hm
        by_cases hc : c = '['
        · subst hc
          cases htl : tryLink rest with
          | none =>
            rw [linkFuel_cons_nomatch n rest htl, linkFuel_cons_nomatch m rest htl,
              ih m rest (by omega) (by omega)]
          | some tur =>
            obtain ⟨t, u, r⟩ := tur
            have hlen := tryLink_length rest t u r htl
            rw [linkFuel_cons_match n rest t u r htl, linkFuel_cons_match m rest t u r htl,
              ih m r (by omega) (by omega)]
        · rw [linkFuel_cons_other n c rest hc, linkFuel_cons_other m c rest hc,
            ih m rest (by omega) (by omega)]

theorem linkSub_cons (c : Char) (l : List Char) (hc : c ≠ '[') :
    linkSub (c :: l) = c :: linkSub l := by
  unfold linkSub
  rw [List.length_cons, linkFuel_cons_other l.length c l hc]

theorem linkSub_match (t u suf : List Char) (ht : t ≠ []) (ht2 : ']' ∉ t)
    (hu : u ≠ []) (hu2 : ')' ∉ u) :
    linkSub ('[' :: (t ++ ']' :: '(' :: (u ++ ')' :: suf))) =
      linkAnchor t u ++ linkSub suf := by
  unfold linkSub
  rw [List.length_cons,
    linkFuel_cons_match _ _ t u suf (tryLink_correct t u suf ht ht2 hu hu2),
    linkFuel_ext _ suf.length suf (by simp [List.length_append]; omega) (Nat.le_refl _)]

theorem brify_chars (l : List Char) :
    brify l = (l.map fun c =>
      if c = '\n' then '<' :: 'b' :: 'r' :: '>' :: '\n' :: [] else [c]).flatten := by
  induction l with
  | nil => rfl
  | cons c rest ih =>
    by_cases hc : c = '\n' <;> simp [brify, hc, ih]

/-- C9 -/
theorem html_conversion_links_and_breaks :
    (∀ pre t u suf : List Char, '[' ∉ pre → t ≠ [] → ']' ∉ t → u ≠ [] → ')' ∉ u →
      linkSub (pre ++ '[' :: (t ++ ']' :: '(' :: (u ++ ')' :: suf))) =
        pre ++ linkAnchor t u ++ linkSub suf) ∧
    (∀ l : List Char, brify l = (l.map fun c =>
      if c = '\n' then '<' :: 'b' :: 'r' :: '>' :: '\n' :: [] else [c]).flatten) ∧
    convert_text_to_html "See [here](http://x.com)\nThanks" =
      "<html><body style=\"font-family: Arial, sans-serif; line-height: 1.6; color: #333;\">See <a href=\"http://x.com\">here</a><br>\nThanks</body></html>" := by
  refine ⟨?_, brify_chars, by decide⟩
  intro pre
  induction pre with
  | nil =>
    intro t u suf hpre ht ht2 hu hu2
    simpa using linkSub_match t u suf ht ht2 hu hu2
  | cons c pre ih =>
    intro t u suf hpre ht ht2 hu hu2
    have hc : c ≠ '[' := fun h => hpre (h ▸ List.mem_cons_self c pre)
    have hpre2 : '[' ∉ pre := fun h => hpre (List.mem_cons_of_mem c h)
    rw [List.cons_append, linkSub_cons c _ hc, ih t u suf hpre2 ht ht2 hu hu2]
    simp

theorem html_conversion_links_and_breaks_witness :
    linkSub ("See ".toList ++ '[' :: ("here".toList ++ ']' :: '(' ::
        ("http://x.com".toList ++ ')' :: "\nThanks".toList))) =
      "See ".toList ++ linkAnchor "here".toList "http://x.com".toList ++
        linkSub "\nThanks".toList :=
  html_conversion_links_and_breaks.1 "See ".toList "here".toList "http://x.com".toList
    "\nThanks".toList (by decide) (by decide) (by decide) (by decide) (by decide)

/-! ### Run-level frame lemmas (C8) -/

theorem row_evolve_trans (a b c : Row)
    (h1 : b = a ∨ (a.Contacted = "No" ∧ b = { a with Contacted := "Yes" }))
    (h2 : c = b ∨ (b.Contacted = "No" ∧ c = { b with Contacted := "Yes" })) :
    c = a ∨ (a.Contacted = "No" ∧ c = { a with Contacted := "Yes" }) := by
  rcases h1 with rfl | ⟨hno, rfl⟩
  · exact h2
  · rcases h2 with rfl | ⟨hno2, rfl⟩
    · exact Or.inr ⟨hno, rfl⟩
    · exact absurd hno2 (by simp)

theorem process_row_frame (w : World) (gs : Bool) (t : List Row) (i : Nat)
    (t2 : List Row) (evs : List Event) (h : process_row w gs t i = some (t2, evs)) :
    t2.length = t.length ∧ ∀ j r r2, t.get? j = some r → t2.get? j = some r2 →
      r2 = r ∨ (r.Contacted = "No" ∧ r2 = { r with Contacted := "Yes" }) := by
  rcases process_row_shape w gs t i t2 evs h with rfl | ⟨row, m, s, hget, _, _, _, hno, rfl⟩
  · exact ⟨rfl, fun j r r2 ha hb => Or.inl (by rw [ha] at hb; injection hb with hb; exact hb.symm)⟩
  · refine ⟨List.length_set t i _, fun j r r2 ha hb => ?_⟩
    by_cases hji : j = i
    · subst hji
      rw [hget] at ha
      injection ha with ha
      subst ha
      have hlt : j < t.length := (List.get?_eq_some.mp hget).1
      rw [List.get?_set_eq_of_lt _ hlt] at hb
      injection hb with hb
      exact Or.inr ⟨hno, hb.symm⟩
    · rw [List.get?_set_ne _ _ (fun h2 => hji h2.symm)] at hb
      rw [ha] at hb
      injection hb with hb
      exact Or.inl hb.symm

theorem run_from_frame (w : World) (gs : Bool) :
    ∀ (is : List Nat) (t : List Row),
      (run_from w gs t is).1.length = t.length ∧
      ∀ j r r2, t.get? j = some r → (run_from w gs t is).1.get? j = some r2 →
        r2 = r ∨ (r.Contacted = "No" ∧ r2 = { r with Contacted := "Yes" }) := by
  intro is
  induction is with
  | nil =>
    intro t
    refine ⟨rfl, fun j r r2 ha hb => Or.inl ?_⟩
    have hb2 : t.get? j = some r2 := hb
    rw [ha] at hb2
    injection hb2 with hb2
    exact hb2.symm
  | cons i rest ih =>
    intro t
    unfold run_from
    cases hp : process_row w gs t i with
    | none =>
      refine ⟨rfl, fun j r r2 ha hb => Or.inl ?_⟩
      have hb2 : t.get? j = some r2 := hb
      rw [ha] at hb2
      injection hb2 with hb2
      exact hb2.symm
    | some p =>
      obtain ⟨t2, evs⟩ := p
      have hstep := process_row_frame w gs t i t2 evs hp
      have hrest := ih t2
      constructor
      · show (run_from w gs t2 rest).1.length = t.length
        rw [hrest.1, hstep.1]
      · intro j r r2 ha hb
        have hb2 : (run_from w gs t2 rest).1.get? j = some r2 := hb
        have hj : j < t.length := (List.get?_eq_some.mp ha).1
        have hj2 : j < t2.length := hstep.1 ▸ hj
        obtain ⟨r1, hr1⟩ : ∃ r1, t2.get? j = some r1 := ⟨_, List.get?_eq_get hj2⟩
        exact row_evolve_trans r r1 r2 (hstep.2 j r r1 ha hr1) (hrest.2 j r1 r2 hr1 hb2)

/-- C8 -/
theorem orchestrator_frame_only_contacted (w : World) (gs : Bool) (table : List Row) :
    (run w gs table).1.length = table.length ∧
    (∀ j r r2, table.get? j = some r → (run w gs table).1.get? j = some r2 →
      r2 = r ∨ (r.Contacted = "No" ∧ r2 = { r with Contacted := "Yes" })) ∧
    (∀ t t2 i evs, process_row w gs t i = some (t2, evs) →
      t2 = t ∨ ∃ row m s, t.get? i = some row ∧ check_row w.files row = true ∧
        generate_message w.files row = some (m, s) ∧ (dispatch w row m s).1 = true ∧
        row.Contacted = "No" ∧ t2 = t.set i { row with Contacted := "Yes" }) := by
  refine ⟨(run_from_frame w gs (List.range table.length) table).1,
    (run_from_frame w gs (List.range table.length) table).2,
    fun t t2 i evs h => process_row_shape w gs t i t2 evs h⟩

theorem orchestrator_frame_only_contacted_witness :
    (run worldOk true [row_jo]).1.length = [row_jo].length ∧
    ({ row_jo with Contacted := "Yes" } = row_jo ∨
      (row_jo.Contacted = "No" ∧
        { row_jo with Contacted := "Yes" } = { row_jo with Contacted := "Yes" })) ∧
    ([rowYes] = [rowYes] ∨ ∃ row m s, [rowYes].get? 0 = some row ∧
      check_row worldOk.files row = true ∧
      generate_message worldOk.files row = some (m, s) ∧
      (dispatch worldOk row m s).1 = true ∧ row.Contacted = "No" ∧
      [rowYes] = [rowYes].set 0 { row with Contacted := "Yes" }) :=
  ⟨(orchestrator_frame_only_contacted worldOk true [row_jo]).1,
   (orchestrator_frame_only_contacted worldOk true [row_jo]).2.1 0 row_jo
     { row_jo with Contacted := "Yes" } (by decide) (by decide),
   (orchestrator_frame_only_contacted worldOk true [rowYes]).2.2 [rowYes] [rowYes] 0 []
     (by decide)⟩
